import Mathlib

/-!
Verification of the logging-reconciliation core of `phaniamt/eksctl`.

The Go source is shallowly embedded: pure computations become Lean
functions, in-place mutation becomes explicit state passing, `error`
returns become `Except String` / `Option String`, and the provider /
scheduler environment (page responses, timer events, describe results)
is passed in as explicit data.
-/

namespace EksctlSpec

/-! ## Facility universe and config defaults (`pkg/apis/.../defaults`) -/

/-- `SupportedCloudWatchClusterLoggingTypes` from the api package:
the closed, ordered universe of logging facilities. -/
def SupportedCloudWatchClusterLoggingTypes : List String :=
  ["api", "audit", "authenticator", "controllerManager", "scheduler"]

/-- Embedding of `ClusterLogging` (only the field the claims touch). -/
structure ClusterLogging where
  enableTypes : List String
  deriving DecidableEq, Repr

/-- Embedding of `ClusterCloudWatch`. -/
structure ClusterCloudWatch where
  clusterLogging : Option ClusterLogging
  deriving DecidableEq, Repr

/-- Embedding of `ClusterConfig` (only the CloudWatch part). -/
structure ClusterConfig where
  cloudWatch : Option ClusterCloudWatch
  deriving DecidableEq, Repr

/-- A config whose declared facility list is `l` (both optional fields set). -/
def cfgOf (l : List String) : ClusterConfig :=
  ⟨some ⟨some ⟨l⟩⟩⟩

/-- The first `for` loop of `SetClusterConfigDefaults`: Go's `range`
iterates over the slice captured at loop entry (`orig`) while the
assignment rewrites the stored list (`cur`); each `"all"`/`"*"` entry
overwrites `cur` with the full universe. -/
def expandLoop : List String → List String → List String
  | [], cur => cur
  | t :: rest, cur =>
    if t = "all" ∨ t = "*" then
      expandLoop rest SupportedCloudWatchClusterLoggingTypes
    else
      expandLoop rest cur

/-- The inner validation loop: `isUnknown := true; for knownLogType ...
{ if logType == knownLogType { isUnknown = false } }` (no break). -/
def isUnknownIn (logType : String) : List String → Bool → Bool
  | [], acc => acc
  | k :: rest, acc => isUnknownIn logType rest (if logType = k then false else acc)

/-- The outer validation loop of `SetClusterConfigDefaults`: returns the
first entry whose `isUnknown` flag survived the inner loop. -/
def validateLoop : List String → Option String
  | [] => none
  | t :: rest =>
    if isUnknownIn t SupportedCloudWatchClusterLoggingTypes true then some t
    else validateLoop rest

/-- The `fmt.Errorf("log type %q is unknown", logType)` message. -/
def unknownLogTypeMsg (t : String) : String :=
  "log type \"" ++ t ++ "\" is unknown"

/-- Embedding of `SetClusterConfigDefaults` restricted to its CloudWatch
logic (the nodegroup part is untouched by the claims); in-place mutation
of `cfg` is modelled by returning the updated config. -/
def SetClusterConfigDefaults (cfg : ClusterConfig) : Except String ClusterConfig :=
  match cfg.cloudWatch with
  | none => .ok cfg
  | some cw =>
    match cw.clusterLogging with
    | none => .ok cfg
    | some cl =>
      let expanded := expandLoop cl.enableTypes cl.enableTypes
      match validateLoop expanded with
      | some t => .error (unknownLogTypeMsg t)
      | none => .ok (cfgOf expanded)

/-! ### Lemmas about expansion and validation -/

theorem expandLoop_univ (l : List String) :
    expandLoop l SupportedCloudWatchClusterLoggingTypes =
      SupportedCloudWatchClusterLoggingTypes := by
  induction l with
  | nil => rfl
  | cons t rest ih =>
    unfold expandLoop
    split <;> exact ih

theorem expandLoop_of_wildcard {l : List String} (cur : List String)
    (h : "all" ∈ l ∨ "*" ∈ l) :
    expandLoop l cur = SupportedCloudWatchClusterLoggingTypes := by
  induction l generalizing cur with
  | nil => rcases h with h | h <;> simp at h
  | cons t rest ih =>
    unfold expandLoop
    by_cases hw : t = "all" ∨ t = "*"
    · rw [if_pos hw]
      exact expandLoop_univ rest
    · rw [if_neg hw]
      apply ih
      rcases h with h | h
      · rcases List.mem_cons.mp h with h | h
        · exact absurd (Or.inl h.symm) hw
        · exact Or.inl h
      · rcases List.mem_cons.mp h with h | h
        · exact absurd (Or.inr h.symm) hw
        · exact Or.inr h

theorem expandLoop_of_no_wildcard {l : List String} (cur : List String)
    (h : "all" ∉ l ∧ "*" ∉ l) : expandLoop l cur = cur := by
  induction l with
  | nil => rfl
  | cons t rest ih =>
    unfold expandLoop
    rw [if_neg, ih ⟨fun hm => h.1 (List.mem_cons_of_mem t hm),
        fun hm => h.2 (List.mem_cons_of_mem t hm)⟩]
    rintro (rfl | rfl)
    · exact h.1 (List.mem_cons_self _ _)
    · exact h.2 (List.mem_cons_self _ _)

theorem isUnknownIn_eq (t : String) (l : List String) (acc : Bool) :
    isUnknownIn t l acc = (acc && !(l.contains t)) := by
  induction l generalizing acc with
  | nil => simp [isUnknownIn]
  | cons k rest ih =>
    unfold isUnknownIn
    rw [ih]
    by_cases hk : t = k <;> simp [hk, List.contains_cons]

theorem validateLoop_eq_none {l : List String}
    (h : ∀ t ∈ l, t ∈ SupportedCloudWatchClusterLoggingTypes) :
    validateLoop l = none := by
  induction l with
  | nil => rfl
  | cons t rest ih =>
    have ht : t ∈ SupportedCloudWatchClusterLoggingTypes :=
      h t (List.mem_cons_self _ _)
    have hrest := ih fun u hu => h u (List.mem_cons_of_mem t hu)
    simp [validateLoop, isUnknownIn_eq, ht, hrest]

theorem validateLoop_first_bad {pre : List String} {bad : String}
    (post : List String)
    (hpre : ∀ u ∈ pre, u ∈ SupportedCloudWatchClusterLoggingTypes)
    (hbad : bad ∉ SupportedCloudWatchClusterLoggingTypes) :
    validateLoop (pre ++ bad :: post) = some bad := by
  induction pre with
  | nil =>
    simp [validateLoop, isUnknownIn_eq, hbad]
  | cons u rest ih =>
    have hu : u ∈ SupportedCloudWatchClusterLoggingTypes :=
      hpre u (List.mem_cons_self _ _)
    have hrest := ih fun v hv => hpre v (List.mem_cons_of_mem u hv)
    simp [validateLoop, isUnknownIn_eq, hu, hrest]

/-- Claim C1: for every declared facility list, a `"all"`/`"*"` wildcard
anywhere makes `SetClusterConfigDefaults` replace the whole `EnableTypes`
list with the full universe in canonical order, discarding other entries;
with no wildcard and only valid names the list is left unchanged. -/
theorem setClusterConfigDefaults_wildcard_and_identity (l : List String) :
    (("all" ∈ l ∨ "*" ∈ l) →
      SetClusterConfigDefaults (cfgOf l) =
        .ok (cfgOf SupportedCloudWatchClusterLoggingTypes)) ∧
    (("all" ∉ l ∧ "*" ∉ l) →
      (∀ t ∈ l, t ∈ SupportedCloudWatchClusterLoggingTypes) →
      SetClusterConfigDefaults (cfgOf l) = .ok (cfgOf l)) := by
  constructor
  · intro hw
    unfold SetClusterConfigDefaults cfgOf
    simp only
    rw [expandLoop_of_wildcard l hw,
      validateLoop_eq_none (fun t ht => ht)]
  · intro hnw hval
    unfold SetClusterConfigDefaults cfgOf
    simp only
    rw [expandLoop_of_no_wildcard l hnw, validateLoop_eq_none hval]

/-- Witness for C1 at concrete inputs: a list holding `"all"` among other
entries collapses to the universe, and a valid wildcard-free list is kept. -/
theorem setClusterConfigDefaults_wildcard_and_identity_witness :
    SetClusterConfigDefaults (cfgOf ["audit", "all", "bogus"]) =
      .ok (cfgOf SupportedCloudWatchClusterLoggingTypes) ∧
    SetClusterConfigDefaults (cfgOf ["audit", "api"]) =
      .ok (cfgOf ["audit", "api"]) :=
  ⟨(setClusterConfigDefaults_wildcard_and_identity
      ["audit", "all", "bogus"]).1 (by decide),
   (setClusterConfigDefaults_wildcard_and_identity
      ["audit", "api"]).2 (by decide) (by decide)⟩

/-- Claim C2: after wildcard expansion `SetClusterConfigDefaults` validates
every entry against the universe; the first non-member makes the call fail
with an unknown-facility error naming exactly that entry, and when every
expanded entry is a member no error is returned. -/
theorem setClusterConfigDefaults_validation (l : List String) :
    (∀ pre bad post,
      expandLoop l l = pre ++ bad :: post →
      (∀ u ∈ pre, u ∈ SupportedCloudWatchClusterLoggingTypes) →
      bad ∉ SupportedCloudWatchClusterLoggingTypes →
      SetClusterConfigDefaults (cfgOf l) = .error (unknownLogTypeMsg bad)) ∧
    ((∀ t ∈ expandLoop l l, t ∈ SupportedCloudWatchClusterLoggingTypes) →
      SetClusterConfigDefaults (cfgOf l) = .ok (cfgOf (expandLoop l l))) := by
  constructor
  · intro pre bad post hsplit hpre hbad
    unfold SetClusterConfigDefaults cfgOf
    simp only
    rw [hsplit, validateLoop_first_bad post hpre hbad]
  · intro hval
    unfold SetClusterConfigDefaults cfgOf
    simp only
    rw [validateLoop_eq_none hval]

/-- Witness for C2 at concrete inputs: `["api", "bogus"]` fails naming
`"bogus"`, and `["audit"]` passes validation. -/
theorem setClusterConfigDefaults_validation_witness :
    SetClusterConfigDefaults (cfgOf ["api", "bogus"]) =
      .error (unknownLogTypeMsg "bogus") ∧
    SetClusterConfigDefaults (cfgOf ["audit"]) =
      .ok (cfgOf (expandLoop ["audit"] ["audit"])) :=
  ⟨(setClusterConfigDefaults_validation ["api", "bogus"]).1
      ["api"] "bogus" [] (by decide) (by decide) (by decide),
   (setClusterConfigDefaults_validation ["audit"]).2 (by decide)⟩

/-! ## Model of k8s `sets.String`

A Go `map[string]Empty` has no duplicate keys and no observable insertion
order except through `List()`, which returns the keys sorted.  We model a
set value as a duplicate-free `List String`: `Insert` appends a key only
when absent, `Has` is membership, `Equal` is the k8s implementation
(`len(s1) == len(s2) && s1.IsSuperset(s2)`), `Difference` inserts the keys
of `s1` not in `s2`, and `List()` sorts. -/

/-- `sets.String.Insert` for a single key. -/
def insertS (s : List String) (x : String) : List String :=
  if x ∈ s then s else s ++ [x]

/-- `sets.NewString(l...)`: insert every element of `l` into the empty set. -/
def goSetOf (l : List String) : List String := l.foldl insertS []

/-- `sets.String.Has`. -/
def goHas (s : List String) (x : String) : Bool := s.contains x

/-- `sets.String.IsSuperset(s2)`: every key of `s2` is in `s1`. -/
def goIsSuperset (s1 s2 : List String) : Bool := s2.all fun x => goHas s1 x

/-- `sets.String.Equal`: `len(s1) == len(s2) && s1.IsSuperset(s2)`. -/
def goEqual (s1 s2 : List String) : Bool :=
  (s1.length == s2.length) && goIsSuperset s1 s2

/-- `sets.String.Difference`: the keys of `s1` that are not in `s2`. -/
def goDifference (s1 s2 : List String) : List String :=
  s1.foldl (fun acc x => if goHas s2 x then acc else insertS acc x) []

/-- `sets.String.List()`: the keys in sorted order. -/
def goList (s : List String) : List String := s.insertionSort (· ≤ ·)

theorem goHas_iff (s : List String) (x : String) : goHas s x = true ↔ x ∈ s := by
  simp [goHas]

theorem mem_insertS (s : List String) (x a : String) :
    a ∈ insertS s x ↔ a ∈ s ∨ a = x := by
  unfold insertS
  by_cases h : x ∈ s
  · simp only [if_pos h]
    constructor
    · exact Or.inl
    · rintro (ha | rfl)
      · exact ha
      · exact h
  · simp [if_neg h]

theorem insertS_nodup {s : List String} (h : s.Nodup) (x : String) :
    (insertS s x).Nodup := by
  unfold insertS
  by_cases hx : x ∈ s
  · simpa [if_pos hx] using h
  · simp [if_neg hx, List.nodup_append, h, hx]

theorem mem_foldl_insertS (l : List String) :
    ∀ (acc : List String) (a : String),
      a ∈ l.foldl insertS acc ↔ a ∈ acc ∨ a ∈ l := by
  induction l with
  | nil => intro acc a; simp
  | cons x rest ih =>
    intro acc a
    simp only [List.foldl_cons, ih, mem_insertS, List.mem_cons]
    tauto

theorem foldl_insertS_nodup (l : List String) :
    ∀ acc : List String, acc.Nodup → (l.foldl insertS acc).Nodup := by
  induction l with
  | nil => intro acc h; exact h
  | cons x rest ih => intro acc h; exact ih _ (insertS_nodup h x)

theorem mem_goSetOf (l : List String) (a : String) : a ∈ goSetOf l ↔ a ∈ l := by
  simp [goSetOf, mem_foldl_insertS]

theorem goSetOf_nodup (l : List String) : (goSetOf l).Nodup :=
  foldl_insertS_nodup l [] List.nodup_nil

theorem goSetOf_toFinset (l : List String) : (goSetOf l).toFinset = l.toFinset := by
  ext a
  simp [List.mem_toFinset, mem_goSetOf]

theorem foldl_insertS_of_nodup (l : List String) :
    ∀ acc : List String, (acc ++ l).Nodup → l.foldl insertS acc = acc ++ l := by
  induction l with
  | nil => intro acc _; simp
  | cons x rest ih =>
    intro acc h
    have hx : x ∉ acc := by
      intro hmem
      exact (List.disjoint_of_nodup_append h) hmem (List.mem_cons_self _ _)
    have hins : insertS acc x = acc ++ [x] := by simp [insertS, hx]
    rw [List.foldl_cons, hins, ih (acc ++ [x]) (by simpa using h)]
    simp

theorem goSetOf_of_nodup {l : List String} (h : l.Nodup) : goSetOf l = l := by
  simpa using foldl_insertS_of_nodup l [] (by simpa using h)

theorem mem_goDifference (s1 s2 : List String) (a : String) :
    a ∈ goDifference s1 s2 ↔ a ∈ s1 ∧ a ∉ s2 := by
  unfold goDifference
  suffices hgen : ∀ acc : List String,
      a ∈ s1.foldl (fun acc x => if goHas s2 x then acc else insertS acc x) acc ↔
        a ∈ acc ∨ (a ∈ s1 ∧ a ∉ s2) by
    simpa using hgen []
  induction s1 with
  | nil => intro acc; simp
  | cons x rest ih =>
    intro acc
    by_cases hx : x ∈ s2 <;> by_cases hax : a = x
    · subst hax
      have hgx : goHas s2 a = true := (goHas_iff s2 a).mpr hx
      simp [List.foldl_cons, hgx, ih, hx]
    · have hgx : goHas s2 x = true := (goHas_iff s2 x).mpr hx
      simp [List.foldl_cons, hgx, ih, hax]
    · subst hax
      have hgx : goHas s2 a = false := by simpa [goHas] using hx
      simp [List.foldl_cons, hgx, ih, mem_insertS, hx]
    · have hgx : goHas s2 x = false := by simpa [goHas] using hx
      simp [List.foldl_cons, hgx, ih, mem_insertS, hax]

theorem goEqual_iff_toFinset {s1 s2 : List String} (h1 : s1.Nodup) (h2 : s2.Nodup) :
    goEqual s1 s2 = true ↔ s1.toFinset = s2.toFinset := by
  have hc1 : s1.toFinset.card = s1.length := List.toFinset_card_of_nodup h1
  have hc2 : s2.toFinset.card = s2.length := List.toFinset_card_of_nodup h2
  simp only [goEqual, goIsSuperset, Bool.and_eq_true, beq_iff_eq,
    List.all_eq_true, goHas_iff]
  constructor
  · rintro ⟨hlen, hsup⟩
    have hsub : s2.toFinset ⊆ s1.toFinset := by
      intro a ha
      exact List.mem_toFinset.mpr (hsup a (List.mem_toFinset.mp ha))
    exact (Finset.eq_of_subset_of_card_le hsub (by omega)).symm
  · intro hfs
    have hcard : s1.toFinset.card = s2.toFinset.card := by rw [hfs]
    refine ⟨by omega, ?_⟩
    intro a ha
    exact List.mem_toFinset.mp (hfs ▸ List.mem_toFinset.mpr ha)

/-! ## `doEnableLogging` (pkg/ctl/utils) and
`UpdateClusterConfigForLogging` (pkg/eks) -/

/-- `shouldEnable` in `doEnableLogging`: a fresh set holding the declared
`EnableTypes` (after `SetClusterConfigDefaults` ran on the config). -/
def shouldEnableSet (enableTypes : List String) : List String :=
  goSetOf enableTypes

/-- `shouldDisable` in `doEnableLogging`:
`sets.NewString(SupportedCloudWatchClusterLoggingTypes()...).Difference(shouldEnable)`. -/
def shouldDisableSet (shouldEnable : List String) : List String :=
  goDifference (goSetOf SupportedCloudWatchClusterLoggingTypes) shouldEnable

/-- `updateRequired := !currentlyEnabled.Equal(shouldEnable)` in
`doEnableLogging`. -/
def updateRequired (currentlyEnabled shouldEnable : List String) : Bool :=
  !(goEqual currentlyEnabled shouldEnable)

/-- Whether `doEnableLogging` invokes `ctl.UpdateClusterConfigForLogging`:
only inside `if updateRequired { ... if !rc.Plan { ... } }`. -/
def updateApplied (plan : Bool) (currentlyEnabled shouldEnable : List String) : Bool :=
  updateRequired currentlyEnabled shouldEnable && !plan

/-- The `enabled` set built by `UpdateClusterConfigForLogging` from the
config's `EnableTypes`. -/
def updateEnabledSet (enableTypes : List String) : List String :=
  goSetOf enableTypes

/-- The `disabled` loop of `UpdateClusterConfigForLogging`: for every
universe member not in `enabled`, insert it into `disabled`. -/
def updateDisabledSet (enabled : List String) : List String :=
  SupportedCloudWatchClusterLoggingTypes.foldl
    (fun dis logType => if goHas enabled logType then dis else insertS dis logType) []

/-- The `Types` slice of the enabled `LogSetup` that
`UpdateClusterConfigForLogging` puts into the `UpdateClusterConfigInput`:
`aws.StringSlice(enabled.List())`. -/
def passedEnabledTypes (enableTypes : List String) : List String :=
  goList (updateEnabledSet enableTypes)

theorem updateDisabledSet_eq_goDifference (enabled : List String) :
    updateDisabledSet enabled =
      goDifference SupportedCloudWatchClusterLoggingTypes enabled := rfl

/-- Claim C3: in `doEnableLogging`, `updateRequired` is false iff the
observed enabled set equals the desired enabled set as sets (list order
irrelevant), and the update call happens only when they differ. -/
theorem doEnableLogging_changed_iff_sets_differ
    (currentlyEnabled declared : List String) (plan : Bool)
    (h1 : currentlyEnabled.Nodup) :
    (updateRequired currentlyEnabled (shouldEnableSet declared) = false ↔
      currentlyEnabled.toFinset = declared.toFinset) ∧
    (updateApplied plan currentlyEnabled (shouldEnableSet declared) = true →
      currentlyEnabled.toFinset ≠ declared.toFinset) := by
  have hiff : goEqual currentlyEnabled (shouldEnableSet declared) = true ↔
      currentlyEnabled.toFinset = declared.toFinset := by
    unfold shouldEnableSet
    rw [goEqual_iff_toFinset h1 (goSetOf_nodup declared), goSetOf_toFinset]
  constructor
  · rw [updateRequired, Bool.not_eq_false']
    exact hiff
  · intro happ hfs
    unfold updateApplied updateRequired at happ
    rw [hiff.mpr hfs] at happ
    simp at happ

/-- Witness for C3 at concrete inputs: observed `["audit", "api"]` and
declared `["api", "audit"]` agree as sets, so no update is required. -/
theorem doEnableLogging_changed_iff_sets_differ_witness :
    updateRequired ["audit", "api"] (shouldEnableSet ["api", "audit"]) = false :=
  (doEnableLogging_changed_iff_sets_differ
    ["audit", "api"] ["api", "audit"] false (by decide)).1.mpr (by decide)

/-- Claim C4: the derived disabled set is `universe − enabled`; hence
disabled ∪ enabled = universe and disabled ∩ enabled = ∅ for every
declared list within the universe, both for the pair built by
`UpdateClusterConfigForLogging` and for the pair in `doEnableLogging`. -/
theorem loggingDisabledSet_complements_enabled (declared : List String)
    (h : declared.toFinset ⊆ SupportedCloudWatchClusterLoggingTypes.toFinset) :
    (updateDisabledSet (updateEnabledSet declared)).toFinset =
      SupportedCloudWatchClusterLoggingTypes.toFinset \ declared.toFinset ∧
    (updateDisabledSet (updateEnabledSet declared)).toFinset ∪ declared.toFinset =
      SupportedCloudWatchClusterLoggingTypes.toFinset ∧
    (updateDisabledSet (updateEnabledSet declared)).toFinset ∩ declared.toFinset = ∅ ∧
    (shouldDisableSet (shouldEnableSet declared)).toFinset ∪ declared.toFinset =
      SupportedCloudWatchClusterLoggingTypes.toFinset ∧
    (shouldDisableSet (shouldEnableSet declared)).toFinset ∩ declared.toFinset = ∅ := by
  have hupd : (updateDisabledSet (updateEnabledSet declared)).toFinset =
      SupportedCloudWatchClusterLoggingTypes.toFinset \ declared.toFinset := by
    rw [updateDisabledSet_eq_goDifference]
    ext a
    simp [List.mem_toFinset, mem_goDifference, updateEnabledSet, mem_goSetOf,
      Finset.mem_sdiff]
  have hshould : (shouldDisableSet (shouldEnableSet declared)).toFinset =
      SupportedCloudWatchClusterLoggingTypes.toFinset \ declared.toFinset := by
    ext a
    simp [shouldDisableSet, shouldEnableSet, List.mem_toFinset, mem_goDifference,
      mem_goSetOf, Finset.mem_sdiff]
  refine ⟨hupd, ?_, ?_, ?_, ?_⟩
  · rw [hupd]
    exact Finset.sdiff_union_of_subset h
  · rw [hupd]
    exact Finset.sdiff_inter_self _ _
  · rw [hshould]
    exact Finset.sdiff_union_of_subset h
  · rw [hshould]
    exact Finset.sdiff_inter_self _ _

/-- Witness for C4 at a concrete input: declared `["audit", "api"]`. -/
theorem loggingDisabledSet_complements_enabled_witness :
    (updateDisabledSet (updateEnabledSet ["audit", "api"])).toFinset =
      SupportedCloudWatchClusterLoggingTypes.toFinset \ (["audit", "api"] : List String).toFinset ∧
    (updateDisabledSet (updateEnabledSet ["audit", "api"])).toFinset ∪
        (["audit", "api"] : List String).toFinset =
      SupportedCloudWatchClusterLoggingTypes.toFinset ∧
    (updateDisabledSet (updateEnabledSet ["audit", "api"])).toFinset ∩
        (["audit", "api"] : List String).toFinset = ∅ ∧
    (shouldDisableSet (shouldEnableSet ["audit", "api"])).toFinset ∪
        (["audit", "api"] : List String).toFinset =
      SupportedCloudWatchClusterLoggingTypes.toFinset ∧
    (shouldDisableSet (shouldEnableSet ["audit", "api"])).toFinset ∩
        (["audit", "api"] : List String).toFinset = ∅ :=
  loggingDisabledSet_complements_enabled ["audit", "api"] (by decide)

/-- Claim C5 fails on the code: `UpdateClusterConfigForLogging` passes
`enabled.List()`, the *sorted* key list of a set, not the declared list.
For the valid wildcard-free declaration `["audit", "api"]` (which
`SetClusterConfigDefaults` leaves unchanged) the update call receives
`["api", "audit"]`, so declared order is not preserved. -/
theorem passedEnabledTypes_not_declared_order :
    SetClusterConfigDefaults (cfgOf ["audit", "api"]) =
      .ok (cfgOf ["audit", "api"]) ∧
    passedEnabledTypes ["audit", "api"] = ["api", "audit"] ∧
    passedEnabledTypes ["audit", "api"] ≠ ["audit", "api"] := by
  have hle : ¬ (("audit" : String) ≤ "api") := by
    rw [String.le_iff_toList_le]
    decide
  have hpass : passedEnabledTypes ["audit", "api"] = ["api", "audit"] := by
    simp [passedEnabledTypes, updateEnabledSet, goSetOf, insertS, goList,
      List.insertionSort, List.orderedInsert, hle]
  refine ⟨by rfl, hpass, ?_⟩
  rw [hpass]
  decide

/-- Claim C5 as amended: the enabled-types list passed to the provider is
the lexicographically sorted deduplication of the expanded/declared list —
same members, no duplicates, sorted — and it coincides with the declared
list exactly when that list is already strictly sorted (as the canonical
universe order is). -/
theorem passedEnabledTypes_sorted_dedup (declared : List String) :
    (passedEnabledTypes declared).Sorted (· ≤ ·) ∧
    (passedEnabledTypes declared).Nodup ∧
    (passedEnabledTypes declared).toFinset = declared.toFinset ∧
    (declared.Sorted (· < ·) → passedEnabledTypes declared = declared) := by
  refine ⟨List.sorted_insertionSort _ _, ?_, ?_, ?_⟩
  · exact ((List.perm_insertionSort _ _).nodup_iff).mpr (goSetOf_nodup declared)
  · rw [passedEnabledTypes, goList,
      List.toFinset_eq_of_perm _ _ (List.perm_insertionSort _ _),
      updateEnabledSet, goSetOf_toFinset]
  · intro hsorted
    rw [passedEnabledTypes, updateEnabledSet, goSetOf_of_nodup hsorted.nodup,
      goList, List.Sorted.insertionSort_eq (hsorted.imp fun hab => le_of_lt hab)]

/-- Witness for C5-as-amended at a concrete input: the strictly sorted
declaration `["api", "audit"]` goes through unchanged. -/
theorem passedEnabledTypes_sorted_dedup_witness :
    passedEnabledTypes ["api", "audit"] = ["api", "audit"] :=
  (passedEnabledTypes_sorted_dedup ["api", "audit"]).2.2.2 (by
    simp only [List.sorted_cons, List.mem_singleton, List.sorted_singleton,
      and_true, forall_eq, String.lt_iff_toList_lt]
    decide)

/-! ## Paginated / partitioned enumeration (`doListClusters`, pkg/eks)

The provider's `ListClusters` call is the environment: an oracle from the
request's page token to either an error or `(clusters, nextToken)`.  The
`doListClusters` page loop is embedded with explicit fuel (the Go loop has
no bound; every theorem assumes fuel covering the response chain) and, as
instrumentation, also returns the list of tokens it requested, so that
"no further pages are requested after an error" is observable. -/

/-- `api.IsSetAndNonEmptyString`: pointer non-nil and string non-empty. -/
def IsSetAndNonEmptyString : Option String → Bool
  | none => false
  | some s => !(s == "")

/-- `getClustersRequest`: one page call; a provider error is wrapped as
`errors.Wrap(err, "listing control planes")`. -/
def getClustersRequest
    (listClusters : String → Except String (List String × Option String))
    (nextToken : String) : Except String (List String × Option String) :=
  match listClusters nextToken with
  | .error e => .error ("listing control planes: " ++ e)
  | .ok r => .ok r

/-- The single-partition page loop of `doListClusters`: request a page,
abort on error, append the page's clusters to the shared `allClusters`
accumulator, continue while the returned token is set and non-empty.
Returns (accumulator, returned error, tokens requested). -/
def doListClustersLoop
    (f : String → Except String (List String × Option String)) :
    Nat → String → List String → List String × Option String × List String
  | 0, _, acc => (acc, none, [])
  | fuel + 1, token, acc =>
    match getClustersRequest f token with
    | .error e => (acc, some e, [token])
    | .ok (clusters, nextToken) =>
      if IsSetAndNonEmptyString nextToken then
        let r := doListClustersLoop f fuel (nextToken.getD "") (acc ++ clusters)
        (r.1, r.2.1, token :: r.2.2)
      else
        (acc ++ clusters, none, [token])

/-- `doListClusters` with `eachRegion = false`: the loop starting from the
empty token. -/
def doListClustersOnePartition
    (f : String → Except String (List String × Option String))
    (fuel : Nat) (allClusters : List String) :
    List String × Option String × List String :=
  doListClustersLoop f fuel "" allClusters

/-- `doListClusters` with `eachRegion = true`: run the page loop once per
partition (region) against the same shared `allClusters` accumulator; a
failing partition's error is logged (second component) and enumeration
continues; the branch always returns `nil` (third component). -/
def doListClustersAllRegions
    (partitions : List (String → Except String (List String × Option String)))
    (fuel : Nat) (allClusters : List String) :
    List String × List String × Option String :=
  match partitions with
  | [] => (allClusters, [], none)
  | f :: rest =>
    let r := doListClustersOnePartition f fuel allClusters
    let next := doListClustersAllRegions rest fuel r.1
    match r.2.1 with
    | some e =>
      (next.1, ("error listing clusters in region: " ++ e) :: next.2.1, next.2.2)
    | none => (next.1, next.2.1, next.2.2)

/-- The chain of page responses a partition's backend serves along the
token chain starting from the empty token: each node is one response. -/
inductive PagePlan where
  | fail (e : String)
  | last (items : List String)
  | more (items : List String) (tok : String) (rest : PagePlan)
  deriving DecidableEq, Repr

/-- Items of the successfully fetched pages of a plan, in page order. -/
def planItems : PagePlan → List String
  | .fail _ => []
  | .last items => items
  | .more items _ rest => items ++ planItems rest

/-- The error the page loop returns for a plan (wrapped as by
`getClustersRequest`), if the plan ends in a failure. -/
def planErr : PagePlan → Option String
  | .fail e => some ("listing control planes: " ++ e)
  | .last _ => none
  | .more _ _ rest => planErr rest

/-- The tokens requested while consuming a plan from token `t`. -/
def planTokens (t : String) : PagePlan → List String
  | .fail _ => [t]
  | .last _ => [t]
  | .more _ tok rest => t :: planTokens tok rest

/-- Number of page requests a plan takes. -/
def planSize : PagePlan → Nat
  | .fail _ => 1
  | .last _ => 1
  | .more _ _ rest => planSize rest + 1

/-- The oracle `f` serves the response chain `p` along the tokens starting
at `t`. -/
def Realizes (f : String → Except String (List String × Option String)) :
    String → PagePlan → Prop
  | t, .fail e => f t = .error e
  | t, .last items =>
    ∃ next, f t = .ok (items, next) ∧ IsSetAndNonEmptyString next = false
  | t, .more items tok rest =>
    f t = .ok (items, some tok) ∧ tok ≠ "" ∧ Realizes f tok rest

theorem doListClustersLoop_realizes
    (f : String → Except String (List String × Option String)) (p : PagePlan) :
    ∀ (fuel : Nat) (t : String) (acc : List String), Realizes f t p →
      planSize p ≤ fuel →
      doListClustersLoop f fuel t acc = (acc ++ planItems p, planErr p, planTokens t p) := by
  induction p with
  | fail e =>
    intro fuel t acc hreal hfuel
    match fuel, hfuel with
    | fuel + 1, _ =>
      unfold doListClustersLoop getClustersRequest
      rw [hreal]
      simp [planItems, planErr, planTokens]
  | last items =>
    intro fuel t acc hreal hfuel
    obtain ⟨next, hok, hempty⟩ := hreal
    match fuel, hfuel with
    | fuel + 1, _ =>
      unfold doListClustersLoop getClustersRequest
      rw [hok]
      simp [hempty, planItems, planErr, planTokens]
  | more items tok rest ih =>
    intro fuel t acc hreal hfuel
    obtain ⟨hok, hne, hrest⟩ := hreal
    match fuel, hfuel with
    | fuel + 1, hfuel =>
      have hset : IsSetAndNonEmptyString (some tok) = true := by
        simp [IsSetAndNonEmptyString, hne]
      have hih := ih fuel tok (acc ++ items) hrest (by
        simpa [planSize] using Nat.le_of_succ_le_succ hfuel)
      unfold doListClustersLoop getClustersRequest
      rw [hok]
      simp [hset, hih, planItems, planErr, planTokens, List.append_assoc]

/-- Claim C7: within one partition `doListClusters` starts from the empty
token, accumulates pages in arrival order, stops exactly when the
returned token is empty or absent, and a page error aborts the partition
and is propagated with no further pages requested (the requested-token
list ends at the failing request). -/
theorem doListClusters_partition_pagination
    (f : String → Except String (List String × Option String)) (p : PagePlan)
    (fuel : Nat) (allClusters : List String)
    (hreal : Realizes f "" p) (hfuel : planSize p ≤ fuel) :
    doListClustersOnePartition f fuel allClusters =
      (allClusters ++ planItems p, planErr p, planTokens "" p) :=
  doListClustersLoop_realizes f p fuel "" allClusters hreal hfuel

/-- A partition that serves one page `["x"]` with next token `"t1"` and
then fails. -/
def pFailMid : String → Except String (List String × Option String) :=
  fun t => if t = "" then .ok (["x"], some "t1") else .error "boom"

/-- A partition whose single page is `["a"]`. -/
def pOkA : String → Except String (List String × Option String) :=
  fun _ => .ok (["a"], none)

/-- A partition whose single page is `["b"]`. -/
def pOkB : String → Except String (List String × Option String) :=
  fun _ => .ok (["b"], none)

/-- Witness for C7 at a concrete oracle: a page then a failure yields the
first page's items, the wrapped error, and exactly two requests. -/
theorem doListClusters_partition_pagination_witness :
    doListClustersOnePartition pFailMid 2 [] =
      (["x"], some "listing control planes: boom", ["", "t1"]) :=
  doListClusters_partition_pagination pFailMid
    (.more ["x"] "t1" (.fail "boom")) 2 []
    ⟨rfl, by decide, rfl⟩ (by decide)

/-- Claim C6 fails on the code: a partition that fails after serving a
page does *not* have its partial results discarded.  With partitions
`{P1 ok ["a"], P2 one page ["x"] then error, P3 ok ["b"]}` the call logs
P2's error and returns no error, but the aggregate is
`["a", "x", "b"]`, not the concatenation `["a", "b"]` of the succeeding
partitions' items. -/
theorem doListClusters_partition_failure_keeps_page :
    doListClustersAllRegions [pOkA, pFailMid, pOkB] 2 [] =
      (["a", "x", "b"],
        ["error listing clusters in region: listing control planes: boom"],
        none) ∧
    (["a", "x", "b"] : List String) ≠ ["a", "b"] := by
  exact ⟨rfl, by decide⟩

/-- Claim C6 as amended: each failing partition's error is logged (in
partition order) and enumeration continues; the call returns no error;
the aggregate is the concatenation over *all* partitions of the items
each partition served before finishing or failing — a failing partition
contributes the pages fetched before its error rather than nothing. -/
theorem doListClusters_partitions_tolerate_failures
    (parts : List (String → Except String (List String × Option String)))
    (plans : List PagePlan) (fuel : Nat) (allClusters : List String)
    (hreal : List.Forall₂ (fun f p => Realizes f "" p) parts plans)
    (hfuel : ∀ p ∈ plans, planSize p ≤ fuel) :
    doListClustersAllRegions parts fuel allClusters =
      (allClusters ++ (plans.map planItems).flatten,
        (plans.filterMap planErr).map
          (fun e => "error listing clusters in region: " ++ e),
        none) := by
  induction hreal generalizing allClusters with
  | nil =>
    simp [doListClustersAllRegions]
  | cons hfp htail ih =>
    rename_i f p fs ps
    have hhead := doListClusters_partition_pagination f p fuel allClusters hfp
      (hfuel p (List.mem_cons_self _ _))
    have htailrw := ih (allClusters ++ planItems p)
      (fun q hq => hfuel q (List.mem_cons_of_mem p hq))
    simp only [doListClustersAllRegions, hhead, htailrw]
    cases herr : planErr p with
    | some e =>
      simp [herr, List.filterMap_cons, List.append_assoc]
    | none =>
      simp [herr, List.filterMap_cons, List.append_assoc]

/-- Witness for C6-as-amended at the concrete partitions of the
counterexample: the mid-failing partition's first page is retained. -/
theorem doListClusters_partitions_tolerate_failures_witness :
    doListClustersAllRegions [pOkA, pFailMid, pOkB] 2 [] =
      (([] : List String) ++
        (([.last ["a"], .more ["x"] "t1" (.fail "boom"), .last ["b"]] :
            List PagePlan).map planItems).flatten,
        (([.last ["a"], .more ["x"] "t1" (.fail "boom"), .last ["b"]] :
            List PagePlan).filterMap planErr).map
          (fun e => "error listing clusters in region: " ++ e),
        none) :=
  doListClusters_partitions_tolerate_failures
    [pOkA, pFailMid, pOkB]
    [.last ["a"], .more ["x"] "t1" (.fail "boom"), .last ["b"]] 2 []
    (List.Forall₂.cons ⟨none, rfl, rfl⟩
      (List.Forall₂.cons ⟨rfl, by decide, rfl⟩
        (List.Forall₂.cons ⟨none, rfl, rfl⟩ List.Forall₂.nil)))
    (by intro q hq; fin_cases hq <;> decide)

/-! ## `WaitForControlPlane` (pkg/eks)

The two-timer `select` loop is embedded over an explicit event trace: the
scheduler's choices (which timer fires / wins the select at each
iteration) form a list of events, and the i-th `ServerVersion()` call's
outcome is given by an oracle (`none` = success).  Call `0` is the check
made before the timers start. -/

/-- One processed `select` event: the 20s ticker or the deadline timer. -/
inductive WaitEvent where
  | tick
  | deadline
  deriving DecidableEq, Repr

/-- `fmt.Errorf("timed out waiting for control plane %q after %s", ...)`. -/
def timedOutMsg (name waitTimeout : String) : String :=
  "timed out waiting for control plane \"" ++ name ++ "\" after " ++ waitTimeout

/-- Waiter outcome under a finite trace: a `return` with an optional
error, or still blocked when the trace ran out. -/
inductive WaitOutcome where
  | finished (err : Option String)
  | running
  deriving DecidableEq, Repr

/-- The `for { select { ... } }` loop of `WaitForControlPlane`. -/
def waitForControlPlaneLoop (serverVersion : Nat → Option String)
    (name waitTimeout : String) : List WaitEvent → Nat → WaitOutcome
  | [], _ => .running
  | .tick :: rest, i =>
    match serverVersion i with
    | none => .finished none
    | some _ => waitForControlPlaneLoop serverVersion name waitTimeout rest (i + 1)
  | .deadline :: _, _ => .finished (some (timedOutMsg name waitTimeout))

/-- `WaitForControlPlane`: the pre-loop `ServerVersion()` check, then the
event loop. -/
def WaitForControlPlane (serverVersion : Nat → Option String)
    (name waitTimeout : String) (events : List WaitEvent) : WaitOutcome :=
  match serverVersion 0 with
  | none => .finished none
  | some _ => waitForControlPlaneLoop serverVersion name waitTimeout events 1

theorem waitForControlPlaneLoop_timeout (serverVersion : Nat → Option String)
    (name waitTimeout : String) (pre : List WaitEvent) :
    ∀ (post : List WaitEvent) (i : Nat), (∀ e ∈ pre, e = WaitEvent.tick) →
      (∀ k, i ≤ k → k < i + pre.length → serverVersion k ≠ none) →
      waitForControlPlaneLoop serverVersion name waitTimeout
          (pre ++ .deadline :: post) i =
        .finished (some (timedOutMsg name waitTimeout)) := by
  induction pre with
  | nil => intro post i _ _; rfl
  | cons e rest ih =>
    intro post i hticks hfail
    have he : e = WaitEvent.tick := hticks e (List.mem_cons_self _ _)
    subst he
    have hi : serverVersion i ≠ none := hfail i le_rfl (by simp)
    cases hsv : serverVersion i with
    | none => exact absurd hsv hi
    | some msg =>
      simp only [List.cons_append, waitForControlPlaneLoop, hsv]
      exact ih post (i + 1) (fun x hx => hticks x (List.mem_cons_of_mem _ hx))
        (fun k hk1 hk2 => hfail k (by omega) (by simp at hk2 ⊢; omega))

theorem waitForControlPlaneLoop_success (serverVersion : Nat → Option String)
    (name waitTimeout : String) (pre : List WaitEvent) :
    ∀ (post : List WaitEvent) (i : Nat), (∀ e ∈ pre, e = WaitEvent.tick) →
      (∀ k, i ≤ k → k < i + pre.length → serverVersion k ≠ none) →
      serverVersion (i + pre.length) = none →
      waitForControlPlaneLoop serverVersion name waitTimeout
          (pre ++ .tick :: post) i = .finished none := by
  induction pre with
  | nil =>
    intro post i _ _ hsucc
    simp only [List.length_nil, Nat.add_zero] at hsucc
    simp [waitForControlPlaneLoop, hsucc]
  | cons e rest ih =>
    intro post i hticks hfail hsucc
    have he : e = WaitEvent.tick := hticks e (List.mem_cons_self _ _)
    subst he
    have hi : serverVersion i ≠ none := hfail i le_rfl (by simp)
    cases hsv : serverVersion i with
    | none => exact absurd hsv hi
    | some msg =>
      simp only [List.cons_append, waitForControlPlaneLoop, hsv]
      exact ih post (i + 1) (fun x hx => hticks x (List.mem_cons_of_mem _ hx))
        (fun k hk1 hk2 => hfail k (by omega) (by simp at hk2 ⊢; omega))
        (by simpa [Nat.add_comm, Nat.add_assoc, Nat.add_left_comm] using hsucc)

theorem waitForControlPlaneLoop_err_timeout (serverVersion : Nat → Option String)
    (name waitTimeout : String) (events : List WaitEvent) :
    ∀ (i : Nat) (err : String),
      waitForControlPlaneLoop serverVersion name waitTimeout events i =
        .finished (some err) → err = timedOutMsg name waitTimeout := by
  induction events with
  | nil => intro i err h; cases h
  | cons e rest ih =>
    intro i err h
    cases e with
    | tick =>
      cases hsv : serverVersion i with
      | none => simp [waitForControlPlaneLoop, hsv] at h
      | some msg =>
        simp only [waitForControlPlaneLoop, hsv] at h
        exact ih (i + 1) err h
    | deadline =>
      simp only [waitForControlPlaneLoop, WaitOutcome.finished.injEq,
        Option.some.injEq] at h
      exact h.symm

/-- Claim C8: for every run (event trace and check oracle) of
`WaitForControlPlane`: when no check succeeds up to the deadline event,
the result is the timeout error naming the cluster and the wait duration,
whatever events follow; a succeeding check — the pre-loop one or the one
at a tick — returns success at that point, whatever events follow; and
every error the waiter can ever return is that timeout error. -/
theorem waitForControlPlane_terminal_outcomes
    (serverVersion : Nat → Option String) (name waitTimeout : String) :
    (serverVersion 0 = none →
      ∀ events, WaitForControlPlane serverVersion name waitTimeout events =
        .finished none) ∧
    (∀ pre post, (∀ e ∈ pre, e = WaitEvent.tick) →
      (∀ k, k ≤ pre.length → serverVersion k ≠ none) →
      WaitForControlPlane serverVersion name waitTimeout
          (pre ++ .deadline :: post) =
        .finished (some (timedOutMsg name waitTimeout))) ∧
    (∀ pre post, (∀ e ∈ pre, e = WaitEvent.tick) →
      (∀ k, k ≤ pre.length → serverVersion k ≠ none) →
      serverVersion (pre.length + 1) = none →
      WaitForControlPlane serverVersion name waitTimeout
          (pre ++ .tick :: post) = .finished none) ∧
    (∀ events err,
      WaitForControlPlane serverVersion name waitTimeout events =
        .finished (some err) → err = timedOutMsg name waitTimeout) := by
  refine ⟨?_, ?_, ?_, ?_⟩
  · intro h0 events
    simp [WaitForControlPlane, h0]
  · intro pre post hticks hfail
    cases hsv : serverVersion 0 with
    | none => exact absurd hsv (hfail 0 (Nat.zero_le _))
    | some msg =>
      simp only [WaitForControlPlane, hsv]
      exact waitForControlPlaneLoop_timeout serverVersion name waitTimeout pre
        post 1 hticks (fun k hk1 hk2 => hfail k (by omega))
  · intro pre post hticks hfail hsucc
    cases hsv : serverVersion 0 with
    | none => exact absurd hsv (hfail 0 (Nat.zero_le _))
    | some msg =>
      simp only [WaitForControlPlane, hsv]
      exact waitForControlPlaneLoop_success serverVersion name waitTimeout pre
        post 1 hticks (fun k hk1 hk2 => hfail k (by omega))
        (by rw [Nat.add_comm]; exact hsucc)
  · intro events err h
    revert h
    cases hsv : serverVersion 0 with
    | none =>
      intro h
      simp [WaitForControlPlane, hsv] at h
    | some msg =>
      intro h
      simp only [WaitForControlPlane, hsv] at h
      exact waitForControlPlaneLoop_err_timeout serverVersion name waitTimeout
        events 1 err h

/-- Witness for C8 at a concrete run: under an oracle that is pending
forever, two ticks then the deadline yield the timeout error naming the
cluster and duration, whatever the trace holds afterwards. -/
theorem waitForControlPlane_terminal_outcomes_witness :
    WaitForControlPlane (fun _ => some "pending") "testcluster" "25m0s"
        ([.tick, .tick] ++ .deadline :: [.tick]) =
      .finished (some (timedOutMsg "testcluster" "25m0s")) :=
  (waitForControlPlane_terminal_outcomes
      (fun _ => some "pending") "testcluster" "25m0s").2.1
    [.tick, .tick] [.tick] (by decide) (fun k _ => by simp)

/-! ## `updateClusterConfigTask.Do` (pkg/eks) -/

/-- The task's error-reporting channel, instrumented: how many times
`close` has been called on it and which errors were sent into it. -/
structure ErrChan where
  closeCount : Nat
  sent : List String
  deriving DecidableEq, Repr

/-- `close(errs)`. -/
def closeChan (c : ErrChan) : ErrChan :=
  { c with closeCount := c.closeCount + 1 }

/-- `updateClusterConfigTask.Do`: `err := t.call(t.spec); close(errs);
return err`.  `call` is the wrapped call's outcome (`none` = nil). -/
def updateClusterConfigTaskDo (call : Option String) (errs : ErrChan) :
    ErrChan × Option String :=
  let err := call
  let errs := closeChan errs
  (errs, err)

/-- Claim C9: on every exit path of `updateClusterConfigTask.Do` — the
wrapped call erring or not — the error channel is closed exactly once
more, nothing further is ever sent on it (so at most one error is
reported), and the call's outcome is returned; from a fresh open channel
the task therefore leaves it closed exactly once with at most one error
reported. -/
theorem updateClusterConfigTaskDo_closes_once (call : Option String)
    (errs : ErrChan) :
    (updateClusterConfigTaskDo call errs).1.closeCount = errs.closeCount + 1 ∧
    (updateClusterConfigTaskDo call errs).1.sent = errs.sent ∧
    (updateClusterConfigTaskDo call errs).2 = call ∧
    (updateClusterConfigTaskDo call ⟨0, []⟩).1.closeCount = 1 ∧
    (updateClusterConfigTaskDo call ⟨0, []⟩).1.sent.length ≤ 1 := by
  refine ⟨rfl, rfl, rfl, rfl, ?_⟩
  simp [updateClusterConfigTaskDo, closeChan]

/-! ## `DescribeControlPlaneMustBeActive` and
`GetCurrentClusterConfigForLogging` (pkg/eks) -/

/-- `awseks.ClusterStatusActive`. -/
def ClusterStatusActive : String := "ACTIVE"

/-- `awseks.LogSetup` (fields read by the logging path). -/
structure LogSetup where
  enabled : Option Bool
  types : List (Option String)
  deriving DecidableEq, Repr

/-- The fields of `awseks.Cluster` the logging path reads. -/
structure EKSCluster where
  name : String
  status : String
  clusterLogging : List LogSetup
  deriving DecidableEq, Repr

/-- `api.IsEnabled(ptr)`: pointer non-nil and value true. -/
def IsEnabled : Option Bool → Bool
  | some b => b
  | none => false

/-- `api.IsDisabled(ptr)`: pointer non-nil and value false. -/
def IsDisabled : Option Bool → Bool
  | some b => !b
  | none => false

/-- `DescribeControlPlane`: the provider's `DescribeCluster` outcome is
the environment; a provider error is wrapped. -/
def DescribeControlPlane (describe : Except String EKSCluster) :
    Except String EKSCluster :=
  match describe with
  | .error e => .error ("unable to describe cluster control plane: " ++ e)
  | .ok cluster => .ok cluster

/-- `DescribeControlPlaneMustBeActive`: describe (wrapping its error
again) and fail unless the cluster status is `ACTIVE`. -/
def DescribeControlPlaneMustBeActive (describe : Except String EKSCluster) :
    Except String EKSCluster :=
  match DescribeControlPlane describe with
  | .error e => .error ("unable to describe cluster control plane: " ++ e)
  | .ok cluster =>
    if cluster.status ≠ ClusterStatusActive then
      .error ("status of cluster \"" ++ cluster.name ++ "\" is \"" ++
        cluster.status ++ "\", has to be \"" ++ ClusterStatusActive ++ "\"")
    else .ok cluster

/-- The inner loop of `GetCurrentClusterConfigForLogging` over one
`LogSetup`'s `Types`: a nil string pointer fails the call, otherwise the
type is inserted into the enabled or disabled set per the setup's flag. -/
def collectTypes (flag : Option Bool) :
    List (Option String) → List String → List String →
      Except String (List String × List String)
  | [], en, dis => .ok (en, dis)
  | none :: _, _, _ => .error "unexpected response from EKS API - nil string"
  | some t :: rest, en, dis =>
    collectTypes flag rest
      (if IsEnabled flag then insertS en t else en)
      (if IsDisabled flag then insertS dis t else dis)

/-- The outer loop over `cluster.Logging.ClusterLogging`. -/
def collectLogging :
    List LogSetup → List String → List String →
      Except String (List String × List String)
  | [], en, dis => .ok (en, dis)
  | i :: rest, en, dis =>
    match collectTypes i.enabled i.types en dis with
    | .error e => .error e
    | .ok (en, dis) => collectLogging rest en dis

/-- `GetCurrentClusterConfigForLogging`: describe-must-be-active (wrapping
its error), then collect the enabled/disabled type sets. -/
def GetCurrentClusterConfigForLogging (describe : Except String EKSCluster) :
    Except String (List String × List String) :=
  match DescribeControlPlaneMustBeActive describe with
  | .error e =>
    .error ("unable to retrieve current cluster logging configuration: " ++ e)
  | .ok cluster => collectLogging cluster.clusterLogging [] []

/-- Claim C10: `GetCurrentClusterConfigForLogging` fails not only when the
describe call fails but also whenever the described cluster's status is
anything but `ACTIVE` (with an error naming the status), and it can only
succeed on a described cluster whose status is `ACTIVE` — reconciliation
never proceeds against a non-Active control plane. -/
theorem getCurrentClusterConfigForLogging_requires_active
    (describe : Except String EKSCluster) :
    (∀ e, describe = .error e →
      GetCurrentClusterConfigForLogging describe =
        .error ("unable to retrieve current cluster logging configuration: " ++
          ("unable to describe cluster control plane: " ++
            ("unable to describe cluster control plane: " ++ e)))) ∧
    (∀ c, describe = .ok c → c.status ≠ ClusterStatusActive →
      GetCurrentClusterConfigForLogging describe =
        .error ("unable to retrieve current cluster logging configuration: " ++
          ("status of cluster \"" ++ c.name ++ "\" is \"" ++ c.status ++
            "\", has to be \"" ++ ClusterStatusActive ++ "\""))) ∧
    (∀ r, GetCurrentClusterConfigForLogging describe = .ok r →
      ∃ c, describe = .ok c ∧ c.status = ClusterStatusActive) := by
  refine ⟨?_, ?_, ?_⟩
  · rintro e rfl
    rfl
  · rintro c rfl hstatus
    simp [GetCurrentClusterConfigForLogging, DescribeControlPlaneMustBeActive,
      DescribeControlPlane, hstatus]
  · intro r hr
    cases describe with
    | error e => cases hr
    | ok c =>
      by_cases hstatus : c.status = ClusterStatusActive
      · exact ⟨c, rfl, hstatus⟩
      · simp [GetCurrentClusterConfigForLogging,
          DescribeControlPlaneMustBeActive, DescribeControlPlane,
          hstatus] at hr

/-- Witness for C10 at a concrete input: a `CREATING` cluster makes the
fetch fail with the status-naming error. -/
theorem getCurrentClusterConfigForLogging_requires_active_witness :
    GetCurrentClusterConfigForLogging
        (.ok ⟨"testcluster", "CREATING", []⟩) =
      .error ("unable to retrieve current cluster logging configuration: " ++
        ("status of cluster \"testcluster\" is \"CREATING\", has to be \"ACTIVE\"")) :=
  (getCurrentClusterConfigForLogging_requires_active
      (.ok ⟨"testcluster", "CREATING", []⟩)).2.1
    ⟨"testcluster", "CREATING", []⟩ rfl (by decide)

end EksctlSpec
